import Mathlib

/-!
# MY-TODOs: task store, REST handlers and client actions

A shallow embedding of

* `src/Task.js`   the task schema (`taskSchema`),
* `src/tasks.js`  the four Express handlers of the task router,
* `src/app.js`    the mount point of the router,
* `src/App.jsx`   the client actions `handleAddOrUpdate` and `handleToggleCompletion`
                  and the `disabled` attribute of the submit button.

The document store behind `Task` (a mongoose model over MongoDB) is a library: it is
modelled as a list of documents in insertion order together with the outcome of each
model call the handlers make, following the documented behaviour of mongoose:

* a route parameter is cast to the `_id` path before the store is asked, and a string
  that is not 24 hexadecimal digits is a `CastError`;
* keys of an update whose value is `undefined` are dropped from the update
  (mongoose 6 and later);
* with `runValidators: true` the validators of the paths an update sets run before
  the store is asked to find the document;
* `save` validates the document before it sends the insert;
* `required: true` on a `String` path rejects `undefined` and the empty string.

Request bodies carry the three fields of the task resource with their schema types; a
field the body omits is `none` (JS `undefined`).  `outage` is `some reason` when the
store cannot be reached, and `none` otherwise.
-/

set_option autoImplicit false

namespace MyTodos

/-! ## JavaScript strings -/

/-- White space and line terminators removed by `String.prototype.trim`. -/
def isJsWhitespace (c : Char) : Bool :=
  let n := c.toNat
  n == 0x09 || n == 0x0A || n == 0x0B || n == 0x0C || n == 0x0D || n == 0x20 ||
  n == 0xA0 || n == 0x1680 || (0x2000 ≤ n && n ≤ 0x200A) || n == 0x2028 ||
  n == 0x2029 || n == 0x202F || n == 0x205F || n == 0x3000 || n == 0xFEFF

/-- The method `s.trim()`. -/
def jsTrim (s : String) : String :=
  String.mk ((s.data.dropWhile isJsWhitespace).reverse.dropWhile isJsWhitespace).reverse

/-- Truthiness of a JS string: only the empty string is falsy. -/
def truthyString (s : String) : Bool := s.data.length != 0

/-- Truthiness of a value that is `null` or a string (the `isEditing` state). -/
def truthyNullable (v : Option String) : Bool :=
  match v with
  | none => false
  | some s => truthyString s

/-! ## Data model (`src/Task.js`) -/

/-- A task document, also in its JSON form: `_id` assigned by the store, the two
text paths (`none` when the document has no such key) and `isCompleted`. -/
structure Task where
  _id : String
  name : Option String
  description : Option String
  isCompleted : Bool
  deriving DecidableEq, Repr

/-- The fields `{ name, description, isCompleted }` destructured from a request body;
`none` is `undefined`. -/
structure TaskFields where
  name : Option String
  description : Option String
  isCompleted : Option Bool
  deriving DecidableEq, Repr

/-- Errors a model call can throw. -/
inductive StoreError where
  /-- A mongoose `ValidationError` on the given path. -/
  | validation (path : String)
  /-- A mongoose `CastError`: the value of the given path cannot be cast. -/
  | cast (path : String)
  /-- MongoDB duplicate key on the unique `_id` index. -/
  | duplicateKey
  /-- The store cannot be reached. -/
  | unreachable (reason : String)
  deriving DecidableEq, Repr

/-- The `required: true` validator of a `String` path: the value is a string of
positive length. -/
def requiredString (v : Option String) : Bool :=
  match v with
  | none => false
  | some s => s.data.length != 0

/-- The options of a `String` path of a schema. -/
structure StringPath where
  required : Bool
  deriving DecidableEq, Repr

/-- The options of a `Boolean` path of a schema; `default` is the `default:` option. -/
structure BooleanPath where
  default : Bool
  deriving DecidableEq, Repr

/-- A schema over the three paths of a task. -/
structure Schema where
  name : StringPath
  description : StringPath
  isCompleted : BooleanPath
  deriving DecidableEq, Repr

/-- The schema of `src/Task.js`. -/
def taskSchema : Schema :=
  { name := { required := true }
    description := { required := false }
    isCompleted := { default := false } }

/-- Validation of the value of a `String` path. -/
def validatePath (path : StringPath) (v : Option String) : Bool :=
  !path.required || requiredString v

/-! ## Identifiers -/

/-- A hexadecimal digit, either case. -/
def isHexChar (c : Char) : Bool :=
  let n := c.toNat
  (48 ≤ n && n ≤ 57) || (97 ≤ n && n ≤ 102) || (65 ≤ n && n ≤ 70)

/-- A decimal digit or a lower-case hexadecimal letter. -/
def isLowerHexChar (c : Char) : Bool :=
  let n := c.toNat
  (48 ≤ n && n ≤ 57) || (97 ≤ n && n ≤ 102)

/-- Lower-cases the letters `A`–`F`. -/
def lowerHexChar (c : Char) : Char :=
  if 65 ≤ c.toNat ∧ c.toNat ≤ 70 then Char.ofNat (c.toNat + 32) else c

/-- The string form of a stored `_id`: 24 lower-case hexadecimal digits. -/
def isCanonicalId (s : String) : Bool :=
  s.data.length == 24 && s.data.all isLowerHexChar

/-- Cast of a route parameter to the `_id` path: a string of 24 hexadecimal digits
denotes an identifier (written in lower case); any other string is a `CastError`. -/
def castObjectId (s : String) : Option String :=
  if s.data.length == 24 && s.data.all isHexChar then
    some (String.mk (s.data.map lowerHexChar))
  else none

/-! ## The store -/

/-- The collection: the stored documents, in insertion order. -/
abbrev Collection := List Task

/-- Store invariant: identifiers are unique and canonical. -/
def Collection.Valid (coll : Collection) : Prop :=
  (coll.map (fun t => t._id)).Nodup ∧ ∀ t ∈ coll, isCanonicalId t._id = true

instance (coll : Collection) : Decidable (Collection.Valid coll) := by
  unfold Collection.Valid; infer_instance

/-- Lookup by identifier (`findById`). -/
def Collection.findById (coll : Collection) (oid : String) : Option Task :=
  coll.find? (fun t => t._id == oid)

/-- The update document after mongoose has dropped its `undefined` keys, applied
as a `$set` to one document. -/
def applyUpdate (t : Task) (upd : TaskFields) : Task :=
  { _id := t._id
    name := match upd.name with
      | some n => some n
      | none => t.name
    description := match upd.description with
      | some d => some d
      | none => t.description
    isCompleted := match upd.isCompleted with
      | some b => b
      | none => t.isCompleted }

/-- Replaces the first document whose `_id` is `oid`. -/
def Collection.replaceById (coll : Collection) (oid : String) (upd : TaskFields) : Collection :=
  match coll with
  | [] => []
  | t :: rest =>
    if t._id == oid then applyUpdate t upd :: rest
    else t :: Collection.replaceById rest oid upd

/-- Removes the first document whose `_id` is `oid`. -/
def Collection.removeById (coll : Collection) (oid : String) : Collection :=
  match coll with
  | [] => []
  | t :: rest =>
    if t._id == oid then rest else t :: Collection.removeById rest oid

/-- The outcome of a model call: what it returns or throws, and the collection
afterwards. -/
structure StoreResult (α : Type) where
  outcome : Except StoreError α
  coll : Collection

/-- The calls `new Task({ name, description, isCompleted })` and `task.save()`.
`newId` is the identifier generated for the document; `outage` is `some reason`
when the store cannot be reached.  The constructor applies the default of
`isCompleted`; `save` validates the document and then sends the insert. -/
def Task.save (outage : Option String) (newId : String) (coll : Collection)
    (name description : Option String) (isCompleted : Option Bool) : StoreResult Task :=
  let task : Task :=
    { _id := newId, name := name, description := description,
      isCompleted := isCompleted.getD taskSchema.isCompleted.default }
  if !validatePath taskSchema.name task.name then ⟨.error (.validation "name"), coll⟩
  else if !validatePath taskSchema.description task.description then
    ⟨.error (.validation "description"), coll⟩
  else
    match outage with
    | some reason => ⟨.error (.unreachable reason), coll⟩
    | none =>
      if coll.any (fun t => t._id == newId) then ⟨.error .duplicateKey, coll⟩
      else ⟨.ok task, coll ++ [task]⟩

/-- The call `Task.find()`: the whole collection. -/
def Task.find (outage : Option String) (coll : Collection) : StoreResult (List Task) :=
  match outage with
  | some reason => ⟨.error (.unreachable reason), coll⟩
  | none => ⟨.ok coll, coll⟩

/-- The call `Task.findByIdAndUpdate(id, update, { new: true, runValidators: true })`.
The identifier is cast, the validators of the paths the update sets are run, and
only then is the store asked to find and modify the document; the result is the
document after the update, or `none` (`null`) when no document has that `_id`. -/
def Task.findByIdAndUpdate (outage : Option String) (coll : Collection) (id : String)
    (upd : TaskFields) : StoreResult (Option Task) :=
  match castObjectId id with
  | none => ⟨.error (.cast "_id"), coll⟩
  | some oid =>
    if upd.name.isSome && !validatePath taskSchema.name upd.name then
      ⟨.error (.validation "name"), coll⟩
    else if upd.description.isSome && !validatePath taskSchema.description upd.description then
      ⟨.error (.validation "description"), coll⟩
    else
      match outage with
      | some reason => ⟨.error (.unreachable reason), coll⟩
      | none =>
        match coll.findById oid with
        | none => ⟨.ok none, coll⟩
        | some t => ⟨.ok (some (applyUpdate t upd)), coll.replaceById oid upd⟩

/-- The call `Task.findByIdAndDelete(id)`: the removed document, or `none` (`null`). -/
def Task.findByIdAndDelete (outage : Option String) (coll : Collection) (id : String) :
    StoreResult (Option Task) :=
  match castObjectId id with
  | none => ⟨.error (.cast "_id"), coll⟩
  | some oid =>
    match outage with
    | some reason => ⟨.error (.unreachable reason), coll⟩
    | none =>
      match coll.findById oid with
      | none => ⟨.ok none, coll⟩
      | some t => ⟨.ok (some t), coll.removeById oid⟩

/-! ## The router (`src/tasks.js`) -/

/-- A JSON payload written by `res.json`. -/
inductive Payload where
  | task (t : Task)
  | tasks (ts : List Task)
  /-- The object `{ error: msg }`. -/
  | error (msg : String)
  /-- The object `{ message: msg }`. -/
  | message (msg : String)
  deriving DecidableEq, Repr

/-- One `res.status(code).json(payload)`. -/
structure Response where
  status : Nat
  body : Payload
  deriving DecidableEq, Repr

/-- What running a block of a handler did: the responses it wrote, in order, and
the exception it threw, if any. -/
structure Exec where
  sent : List Response
  thrown : Option StoreError
  deriving DecidableEq, Repr

/-- The statement `res.status(code).json(payload)`, which completes normally. -/
def send (code : Nat) (payload : Payload) : Exec :=
  ⟨[⟨code, payload⟩], none⟩

/-- An `await` of a model call inside a block: the continuation runs on the value,
an error is thrown out of the block. -/
def awaitThen {α : Type} (r : Except StoreError α) (k : α → Exec) : Exec :=
  match r with
  | .error e => ⟨[], some e⟩
  | .ok v => k v

/-- The statement `try { body } catch (err) { handler }`. -/
def tryCatch (body : Exec) (handler : StoreError → Exec) : Exec :=
  match body.thrown with
  | none => body
  | some e =>
    let h := handler e
    ⟨body.sent ++ h.sent, h.thrown⟩

/-- A handler run: what it wrote and threw, and the collection afterwards. -/
structure Handled where
  exec : Exec
  coll : Collection
  deriving DecidableEq, Repr

/-- The response part of `router.post("/")` given the outcome of `task.save()`. -/
def postRespond (saved : Except StoreError Task) : Exec :=
  tryCatch (awaitThen saved fun task => send 201 (.task task))
    (fun _ => send 500 (.error "Failed to create task"))

/-- The handler `router.post("/")`. -/
def router_post (outage : Option String) (newId : String) (coll : Collection)
    (body : TaskFields) : Handled :=
  let name := body.name
  let description := body.description
  let isCompleted := body.isCompleted.getD false
  let r := Task.save outage newId coll name description (some isCompleted)
  ⟨postRespond r.outcome, r.coll⟩

/-- The response part of `router.get("/")` given the outcome of `Task.find()`. -/
def getRespond (found : Except StoreError (List Task)) : Exec :=
  tryCatch (awaitThen found fun tasks => send 200 (.tasks tasks))
    (fun _ => send 500 (.error "Failed to fetch tasks"))

/-- The handler `router.get("/")`. -/
def router_get (outage : Option String) (coll : Collection) : Handled :=
  let r := Task.find outage coll
  ⟨getRespond r.outcome, r.coll⟩

/-- The response part of `router.patch("/:id")` given the outcome of
`Task.findByIdAndUpdate`. -/
def patchRespond (updated : Except StoreError (Option Task)) : Exec :=
  tryCatch
    (awaitThen updated fun updatedTask =>
      match updatedTask with
      | none => send 404 (.error "Task not found")
      | some t => send 200 (.task t))
    (fun _ => send 500 (.error "Failed to update task"))

/-- The handler `router.patch("/:id")`. -/
def router_patch (outage : Option String) (coll : Collection) (id : String)
    (body : TaskFields) : Handled :=
  let r := Task.findByIdAndUpdate outage coll id
    { name := body.name, description := body.description, isCompleted := body.isCompleted }
  ⟨patchRespond r.outcome, r.coll⟩

/-- The response part of `router.delete("/:id")` given the outcome of
`Task.findByIdAndDelete`. -/
def deleteRespond (deleted : Except StoreError (Option Task)) : Exec :=
  tryCatch
    (awaitThen deleted fun deletedTask =>
      match deletedTask with
      | none => send 404 (.error "Task not found")
      | some _ => send 200 (.message "Task deleted"))
    (fun _ => send 500 (.error "Failed to delete task"))

/-- The handler `router.delete("/:id")`. -/
def router_delete (outage : Option String) (coll : Collection) (id : String) : Handled :=
  let r := Task.findByIdAndDelete outage coll id
  ⟨deleteRespond r.outcome, r.coll⟩

/-! ## The Express application (`src/app.js`) -/

/-- HTTP request methods. -/
inductive Method where
  | GET | POST | PUT | PATCH | DELETE
  deriving DecidableEq, Repr

/-- The routes the task router defines. -/
inductive Route where
  /-- The route `router.post("/")`. -/
  | create
  /-- The route `router.get("/")`. -/
  | list
  /-- The route `router.patch("/:id")`. -/
  | update (id : String)
  /-- The route `router.delete("/:id")`. -/
  | remove (id : String)
  deriving DecidableEq, Repr

/-- The origin the server listens on (`PORT` defaults to 5000). -/
def ORIGIN : String := "http://localhost:5000"

/-- The path segments of a URL of this origin; `none` for another origin. -/
def urlSegments (url : String) : Option (List String) :=
  if ORIGIN.data.isPrefixOf url.data then
    some (((url.data.drop ORIGIN.data.length).splitOn '/').filter (fun seg => !seg.isEmpty)
      |>.map String.mk)
  else none

/-- Route matching inside the task router, on the path below its mount point. -/
def routerMatch (m : Method) (segs : List String) : Option Route :=
  match m, segs with
  | .POST, [] => some .create
  | .GET, [] => some .list
  | .PATCH, [id] => some (.update id)
  | .DELETE, [id] => some (.remove id)
  | _, _ => none

/-- Route matching of the application: `app.use("/api/tasks", taskRoutes)`. -/
def appMatch (m : Method) (url : String) : Option Route :=
  match urlSegments url with
  | some ("api" :: "tasks" :: rest) => routerMatch m rest
  | _ => none

/-- A request as the client issues it: method, URL and JSON body. -/
structure HttpRequest where
  method : Method
  url : String
  data : TaskFields
  deriving DecidableEq, Repr

/-- The application serving one request: the handler of the matching route runs;
`none` when no route matches, in which case no handler runs (Express answers 404
by itself) and the collection is untouched. -/
def app (outage : Option String) (newId : String) (coll : Collection)
    (req : HttpRequest) : Option Handled :=
  match appMatch req.method req.url with
  | none => none
  | some .create => some (router_post outage newId coll req.data)
  | some .list => some (router_get outage coll)
  | some (.update id) => some (router_patch outage coll id req.data)
  | some (.remove id) => some (router_delete outage coll id)

/-! ## The client (`src/App.jsx`) -/

/-- The constant `API_URL`. -/
def API_URL : String := "http://localhost:5000/api/tasks"

/-- The state of the `App` component (its seven `useState` cells). -/
structure AppState where
  todoName : String
  description : String
  todos : List Task
  showFinished : Bool
  isEditing : Option String
  isLoading : Bool
  error : Option String
  deriving DecidableEq, Repr

/-- The synchronous part of `handleAddOrUpdate`: the state after it and the
request it issues, if any. -/
def handleAddOrUpdate (st : AppState) : AppState × Option HttpRequest :=
  let st1 := { st with error := none }
  if !truthyString (jsTrim st.todoName) then (st1, none)
  else
    let request : HttpRequest :=
      match st.isEditing with
      | some id =>
        if truthyString id then
          ⟨.PUT, API_URL ++ "/" ++ id, ⟨some st.todoName, some st.description, none⟩⟩
        else ⟨.POST, API_URL, ⟨some st.todoName, some st.description, none⟩⟩
      | none => ⟨.POST, API_URL, ⟨some st.todoName, some st.description, none⟩⟩
    (st1, some request)

/-- The `.then` callback of `handleAddOrUpdate`.  `render` is the state the
handler closed over (`todos`, `isEditing`), `cur` the state when the response
arrives, `data` the body of the response. -/
def handleAddOrUpdate_then (render cur : AppState) (data : Task) : AppState :=
  if truthyNullable render.isEditing then
    { cur with
      todos := render.todos.map (fun task => if some task._id == render.isEditing then data else task)
      isEditing := none
      todoName := ""
      description := "" }
  else
    { cur with
      todos := render.todos ++ [data]
      todoName := ""
      description := "" }

/-- The `.catch` callback of `handleAddOrUpdate`. -/
def handleAddOrUpdate_catch (cur : AppState) : AppState :=
  { cur with error := some "Error saving task." }

/-- The synchronous part of `handleToggleCompletion(id, isCompleted)`: the
optimistic flip and the request. -/
def handleToggleCompletion (st : AppState) (id : String) (isCompleted : Bool) :
    AppState × HttpRequest :=
  let updatedTodos := st.todos.map
    (fun task => if task._id == id then { task with isCompleted := !isCompleted } else task)
  ({ st with todos := updatedTodos },
   ⟨.PATCH, API_URL ++ "/" ++ id, ⟨none, none, some (!isCompleted)⟩⟩)

/-- The `.then` callback of `handleToggleCompletion`: a functional update of the
cache as it is when the response arrives. -/
def handleToggleCompletion_then (cur : AppState) (id : String) (data : Task) : AppState :=
  { cur with todos := cur.todos.map (fun task => if task._id == id then data else task) }

/-- The `.catch` callback of `handleToggleCompletion`: `render` is the state the
handler closed over, whose `todos` is written back. -/
def handleToggleCompletion_catch (render cur : AppState) : AppState :=
  { cur with error := some "Error toggling task completion.", todos := render.todos }

/-- How a request settles for the client. -/
inductive Settled where
  | resolved (data : Task)
  | rejected
  deriving DecidableEq, Repr

/-- One run of `handleAddOrUpdate` with nothing else happening before the
request settles; `settle` tells how the issued request settles. -/
def runAddOrUpdate (st : AppState) (settle : HttpRequest → Settled) : AppState :=
  match handleAddOrUpdate st with
  | (st1, none) => st1
  | (st1, some req) =>
    match settle req with
    | .resolved data => handleAddOrUpdate_then st st1 data
    | .rejected => handleAddOrUpdate_catch st1

/-- One run of `handleToggleCompletion` with nothing else happening before the
request settles. -/
def runToggleCompletion (st : AppState) (id : String) (isCompleted : Bool)
    (settle : HttpRequest → Settled) : AppState :=
  match handleToggleCompletion st id isCompleted with
  | (st1, req) =>
    match settle req with
    | .resolved data => handleToggleCompletion_then st1 id data
    | .rejected => handleToggleCompletion_catch st st1

/-! ## Sample data -/

/-- A stored task. -/
def sampleMilk : Task :=
  { _id := "65a1b2c3d4e5f60718293a4b", name := some "Buy milk", description := some "2%",
    isCompleted := false }

/-- Another stored task. -/
def sampleDog : Task :=
  { _id := "65a1b2c3d4e5f60718293a4c", name := some "Walk dog", description := none,
    isCompleted := true }

/-- A collection of two tasks. -/
def sampleColl : Collection := [sampleMilk, sampleDog]

/-- A well-formed identifier that no task of `sampleColl` has. -/
def sampleFreshId : String := "65a1b2c3d4e5f60718293a4d"

/-- A client state with a cache of two tasks and empty buffers. -/
def sampleState : AppState :=
  { todoName := "", description := "", todos := sampleColl, showFinished := true,
    isEditing := none, isLoading := false, error := none }

/-! ## Lemmas on identifiers and the collection -/

theorem lowerHexChar_of_lower (c : Char) (h : isLowerHexChar c = true) : lowerHexChar c = c := by
  unfold isLowerHexChar at h
  unfold lowerHexChar
  simp only [Bool.or_eq_true, Bool.and_eq_true, decide_eq_true_eq] at h
  have : ¬ (65 ≤ c.toNat ∧ c.toNat ≤ 70) := by omega
  simp [this]

theorem isHexChar_of_lower (c : Char) (h : isLowerHexChar c = true) : isHexChar c = true := by
  unfold isLowerHexChar at h
  unfold isHexChar
  simp only [Bool.or_eq_true, Bool.and_eq_true, decide_eq_true_eq] at h ⊢
  omega

theorem map_lowerHexChar_of_lower (cs : List Char) (h : cs.all isLowerHexChar = true) :
    cs.map lowerHexChar = cs := by
  induction cs with
  | nil => rfl
  | cons c rest ih =>
    simp only [List.all_cons, Bool.and_eq_true] at h
    simp [lowerHexChar_of_lower c h.1, ih h.2]

theorem all_isHexChar_of_lower (cs : List Char) (h : cs.all isLowerHexChar = true) :
    cs.all isHexChar = true := by
  induction cs with
  | nil => rfl
  | cons c rest ih =>
    simp only [List.all_cons, Bool.and_eq_true] at h ⊢
    exact ⟨isHexChar_of_lower c h.1, ih h.2⟩

/-- A canonical identifier casts to itself. -/
theorem castObjectId_canonical (s : String) (h : isCanonicalId s = true) :
    castObjectId s = some s := by
  unfold isCanonicalId at h
  simp only [Bool.and_eq_true] at h
  unfold castObjectId
  rw [if_pos (by simp only [Bool.and_eq_true]; exact ⟨h.1, all_isHexChar_of_lower _ h.2⟩)]
  rw [map_lowerHexChar_of_lower _ h.2]

theorem findById_none_of_absent (coll : Collection) (oid : String)
    (h : ∀ t ∈ coll, t._id ≠ oid) : coll.findById oid = none := by
  unfold Collection.findById
  rw [List.find?_eq_none]
  intro t ht
  simpa using h t ht

theorem findById_of_mem (coll : Collection) (t : Task)
    (hnd : (coll.map (fun t => t._id)).Nodup) (ht : t ∈ coll) :
    coll.findById t._id = some t := by
  unfold Collection.findById
  induction coll with
  | nil => cases ht
  | cons x rest ih =>
    simp only [List.map_cons, List.nodup_cons, List.mem_map, not_exists, not_and] at hnd
    rcases List.mem_cons.mp ht with rfl | hmem
    · simp
    · have hx : x._id ≠ t._id := fun heq => hnd.1 t hmem heq.symm
      rw [List.find?_cons_of_neg _ (by simpa using hx)]
      exact ih hnd.2 hmem

/-- With unique identifiers, replacing by `_id` replaces exactly the document `t`. -/
theorem replaceById_eq_map (coll : Collection) (t : Task) (upd : TaskFields)
    (hnd : (coll.map (fun t => t._id)).Nodup) (ht : t ∈ coll) :
    coll.replaceById t._id upd = coll.map (fun x => if x = t then applyUpdate t upd else x) := by
  induction coll with
  | nil => cases ht
  | cons x rest ih =>
    simp only [List.map_cons, List.nodup_cons, List.mem_map, not_exists, not_and] at hnd
    rcases List.mem_cons.mp ht with rfl | hmem
    · have hrest : ∀ y ∈ rest, y ≠ t := fun y hy heq => hnd.1 y hy (by rw [heq])
      have hmap : rest.map (fun x => if x = t then applyUpdate t upd else x) = rest := by
        conv_rhs => rw [← List.map_id rest]
        apply List.map_congr_left
        intro y hy
        simp [hrest y hy]
      simp [Collection.replaceById, hmap]
    · have hx : x._id ≠ t._id := fun heq => hnd.1 t hmem heq.symm
      have hxt : x ≠ t := fun heq => hx (by rw [heq])
      simp only [Collection.replaceById, beq_iff_eq, hx, if_false, List.map_cons, hxt]
      rw [ih hnd.2 hmem]

/-- With unique identifiers, removing by `_id` removes exactly the document `t`. -/
theorem removeById_eq_filter (coll : Collection) (t : Task)
    (hnd : (coll.map (fun t => t._id)).Nodup) (ht : t ∈ coll) :
    coll.removeById t._id = coll.filter (fun x => !(x._id == t._id)) := by
  induction coll with
  | nil => cases ht
  | cons x rest ih =>
    simp only [List.map_cons, List.nodup_cons, List.mem_map, not_exists, not_and] at hnd
    rcases List.mem_cons.mp ht with rfl | hmem
    · have hrest : ∀ y ∈ rest, y._id ≠ t._id := fun y hy heq => hnd.1 y hy heq
      have hfil : rest.filter (fun x => !(x._id == t._id)) = rest := by
        rw [List.filter_eq_self]
        intro y hy
        simpa using hrest y hy
      rw [List.filter_cons_of_neg (by simp), hfil]
      simp [Collection.removeById]
    · have hx : x._id ≠ t._id := fun heq => hnd.1 t hmem heq.symm
      simp only [Collection.removeById, beq_iff_eq, hx, if_false]
      rw [List.filter_cons_of_pos (by simpa using hx), ih hnd.2 hmem]

/-! ## The outcomes of the model calls, case by case -/

@[simp] theorem validatePath_name (v : Option String) :
    validatePath taskSchema.name v = requiredString v := rfl

@[simp] theorem validatePath_description (v : Option String) :
    validatePath taskSchema.description v = true := rfl

theorem requiredString_of_ne_empty (n : String) (hn : n ≠ "") :
    requiredString (some n) = true := by
  obtain ⟨cs⟩ := n
  have hcs : cs ≠ [] := fun h => hn (by rw [h])
  simp [requiredString, hcs]

theorem update_valid_of_name (upd : TaskFields) (hname : upd.name ≠ some "") :
    (upd.name.isSome && !requiredString upd.name) = false := by
  cases hn : upd.name with
  | none => rfl
  | some n =>
    have hne : n ≠ "" := fun h => hname (by rw [hn, h])
    simp [requiredString_of_ne_empty n hne]

theorem save_of_invalid (outage : Option String) (newId : String) (coll : Collection)
    (name description : Option String) (isCompleted : Option Bool)
    (h : requiredString name = false) :
    Task.save outage newId coll name description isCompleted
      = ⟨.error (.validation "name"), coll⟩ := by
  simp [Task.save, h]

theorem save_of_outage (reason : String) (newId : String) (coll : Collection)
    (name description : Option String) (isCompleted : Option Bool)
    (h : requiredString name = true) :
    Task.save (some reason) newId coll name description isCompleted
      = ⟨.error (.unreachable reason), coll⟩ := by
  simp [Task.save, h]

theorem save_of_duplicate (newId : String) (coll : Collection)
    (name description : Option String) (isCompleted : Option Bool)
    (h : requiredString name = true) (hany : coll.any (fun t => t._id == newId) = true) :
    Task.save none newId coll name description isCompleted
      = ⟨.error .duplicateKey, coll⟩ := by
  unfold Task.save
  simp only [validatePath_name, validatePath_description, h, Bool.not_true, Bool.false_eq_true,
    if_false, hany, if_true]

theorem save_of_fresh (newId : String) (coll : Collection)
    (name description : Option String) (isCompleted : Option Bool)
    (h : requiredString name = true) (hany : coll.any (fun t => t._id == newId) = false) :
    Task.save none newId coll name description isCompleted
      = ⟨.ok ⟨newId, name, description, isCompleted.getD false⟩,
         coll ++ [⟨newId, name, description, isCompleted.getD false⟩]⟩ := by
  unfold Task.save
  simp only [validatePath_name, validatePath_description, h, Bool.not_true, Bool.false_eq_true,
    if_false, hany]
  rfl

theorem update_of_bad_id (outage : Option String) (coll : Collection) (id : String)
    (upd : TaskFields) (hcast : castObjectId id = none) :
    Task.findByIdAndUpdate outage coll id upd = ⟨.error (.cast "_id"), coll⟩ := by
  simp [Task.findByIdAndUpdate, hcast]

theorem update_of_invalid (outage : Option String) (coll : Collection) (id oid : String)
    (upd : TaskFields) (hcast : castObjectId id = some oid)
    (h : (upd.name.isSome && !requiredString upd.name) = true) :
    Task.findByIdAndUpdate outage coll id upd = ⟨.error (.validation "name"), coll⟩ := by
  unfold Task.findByIdAndUpdate
  simp only [hcast, validatePath_name, h, if_true]

theorem update_of_outage (reason : String) (coll : Collection) (id oid : String)
    (upd : TaskFields) (hcast : castObjectId id = some oid)
    (h : (upd.name.isSome && !requiredString upd.name) = false) :
    Task.findByIdAndUpdate (some reason) coll id upd = ⟨.error (.unreachable reason), coll⟩ := by
  unfold Task.findByIdAndUpdate
  simp [hcast, h]

theorem update_of_absent (coll : Collection) (id oid : String)
    (upd : TaskFields) (hcast : castObjectId id = some oid)
    (h : (upd.name.isSome && !requiredString upd.name) = false)
    (hfind : coll.findById oid = none) :
    Task.findByIdAndUpdate none coll id upd = ⟨.ok none, coll⟩ := by
  unfold Task.findByIdAndUpdate
  simp [hcast, h, hfind]

theorem update_of_found (coll : Collection) (id oid : String) (t : Task)
    (upd : TaskFields) (hcast : castObjectId id = some oid)
    (h : (upd.name.isSome && !requiredString upd.name) = false)
    (hfind : coll.findById oid = some t) :
    Task.findByIdAndUpdate none coll id upd
      = ⟨.ok (some (applyUpdate t upd)), coll.replaceById oid upd⟩ := by
  unfold Task.findByIdAndUpdate
  simp [hcast, h, hfind]

theorem delete_of_bad_id (outage : Option String) (coll : Collection) (id : String)
    (hcast : castObjectId id = none) :
    Task.findByIdAndDelete outage coll id = ⟨.error (.cast "_id"), coll⟩ := by
  simp [Task.findByIdAndDelete, hcast]

theorem delete_of_outage (reason : String) (coll : Collection) (id oid : String)
    (hcast : castObjectId id = some oid) :
    Task.findByIdAndDelete (some reason) coll id = ⟨.error (.unreachable reason), coll⟩ := by
  simp [Task.findByIdAndDelete, hcast]

theorem delete_of_absent (coll : Collection) (id oid : String)
    (hcast : castObjectId id = some oid) (hfind : coll.findById oid = none) :
    Task.findByIdAndDelete none coll id = ⟨.ok none, coll⟩ := by
  simp [Task.findByIdAndDelete, hcast, hfind]

theorem delete_of_found (coll : Collection) (id oid : String) (t : Task)
    (hcast : castObjectId id = some oid) (hfind : coll.findById oid = some t) :
    Task.findByIdAndDelete none coll id = ⟨.ok (some t), coll.removeById oid⟩ := by
  simp [Task.findByIdAndDelete, hcast, hfind]

/-! ## The store invariant is kept by every handler -/

theorem valid_iff_ids (coll : Collection) :
    coll.Valid ↔ (coll.map (fun t => t._id)).Nodup ∧
      ∀ i ∈ coll.map (fun t => t._id), isCanonicalId i = true := by
  unfold Collection.Valid
  constructor
  · rintro ⟨hnd, hcan⟩
    refine ⟨hnd, ?_⟩
    intro i hi
    obtain ⟨t, ht, rfl⟩ := List.mem_map.mp hi
    exact hcan t ht
  · rintro ⟨hnd, hcan⟩
    exact ⟨hnd, fun t ht => hcan t._id (List.mem_map.mpr ⟨t, ht, rfl⟩)⟩

theorem ids_replaceById (coll : Collection) (oid : String) (upd : TaskFields) :
    (coll.replaceById oid upd).map (fun t => t._id) = coll.map (fun t => t._id) := by
  induction coll with
  | nil => rfl
  | cons x rest ih =>
    unfold Collection.replaceById
    split
    · simp [applyUpdate]
    · simp [ih]

theorem removeById_sublist (coll : Collection) (oid : String) :
    (coll.removeById oid).Sublist coll := by
  induction coll with
  | nil => exact List.Sublist.slnil
  | cons x rest ih =>
    unfold Collection.removeById
    split
    · exact List.sublist_cons_self x rest
    · exact ih.cons₂ x

/-- The empty collection satisfies the store invariant. -/
theorem valid_nil : Collection.Valid [] := by
  constructor
  · exact List.nodup_nil
  · intro t ht; cases ht

/-- The handler `router.post("/")` keeps the store invariant when the generated id
is canonical. -/
theorem router_post_keeps_valid (outage : Option String) (newId : String) (coll : Collection)
    (body : TaskFields) (hvalid : coll.Valid) (hid : isCanonicalId newId = true) :
    (router_post outage newId coll body).coll.Valid := by
  unfold router_post
  dsimp only
  cases hreq : requiredString body.name with
  | false => rw [save_of_invalid _ _ _ _ _ _ hreq]; exact hvalid
  | true =>
    cases outage with
    | some reason => rw [save_of_outage _ _ _ _ _ _ hreq]; exact hvalid
    | none =>
      cases hany : coll.any (fun t => t._id == newId) with
      | true => rw [save_of_duplicate _ _ _ _ _ hreq hany]; exact hvalid
      | false =>
        rw [save_of_fresh _ _ _ _ _ hreq hany]
        have hfresh : ∀ t ∈ coll, t._id ≠ newId := by
          intro t ht
          simpa using List.any_eq_false.mp hany t ht
        rw [valid_iff_ids] at hvalid ⊢
        simp only [List.map_append, List.map_cons, List.map_nil]
        refine ⟨?_, ?_⟩
        · rw [List.nodup_append]
          refine ⟨hvalid.1, List.nodup_singleton _, ?_⟩
          intro i hi hi2
          obtain ⟨t, ht, rfl⟩ := List.mem_map.mp hi
          exact hfresh t ht (List.mem_singleton.mp hi2)
        · intro i hi
          rcases List.mem_append.mp hi with h | h
          · exact hvalid.2 i h
          · rw [List.mem_singleton.mp h]; exact hid

/-- The handler `router.patch("/:id")` keeps the store invariant. -/
theorem router_patch_keeps_valid (outage : Option String) (coll : Collection) (id : String)
    (body : TaskFields) (hvalid : coll.Valid) :
    (router_patch outage coll id body).coll.Valid := by
  unfold router_patch
  dsimp only
  cases hcast : castObjectId id with
  | none => rw [update_of_bad_id _ _ _ _ hcast]; exact hvalid
  | some oid =>
    cases hval : (body.name.isSome && !requiredString body.name) with
    | true => rw [update_of_invalid _ _ _ _ _ hcast hval]; exact hvalid
    | false =>
      cases outage with
      | some reason => rw [update_of_outage _ _ _ _ _ hcast hval]; exact hvalid
      | none =>
        cases hfind : coll.findById oid with
        | none => rw [update_of_absent _ _ _ _ hcast hval hfind]; exact hvalid
        | some t =>
          rw [update_of_found _ _ _ _ _ hcast hval hfind]
          dsimp only
          rw [valid_iff_ids, ids_replaceById, ← valid_iff_ids]
          exact hvalid

/-- The handler `router.delete("/:id")` keeps the store invariant. -/
theorem router_delete_keeps_valid (outage : Option String) (coll : Collection) (id : String)
    (hvalid : coll.Valid) : (router_delete outage coll id).coll.Valid := by
  unfold router_delete
  dsimp only
  cases hcast : castObjectId id with
  | none => rw [delete_of_bad_id _ _ _ hcast]; exact hvalid
  | some oid =>
    cases outage with
    | some reason => rw [delete_of_outage _ _ _ _ hcast]; exact hvalid
    | none =>
      cases hfind : coll.findById oid with
      | none => rw [delete_of_absent _ _ _ hcast hfind]; exact hvalid
      | some t =>
        rw [delete_of_found _ _ _ _ hcast hfind]
        have hsub := removeById_sublist coll oid
        exact ⟨hvalid.1.sublist (hsub.map _), fun t ht => hvalid.2 t (hsub.subset ht)⟩

/-! ## Lemmas on JavaScript strings -/

theorem truthyString_eq_false_iff (s : String) : truthyString s = false ↔ s = "" := by
  obtain ⟨cs⟩ := s
  cases cs with
  | nil => simp [truthyString]
  | cons c rest =>
    simp only [truthyString, List.length_cons, bne_eq_false_iff_eq, Nat.add_one_ne_zero, false_iff]
    intro h
    have := congrArg String.data h
    simp at this

/-! ## The router: properties -/

/-- C1: for a stored task `t` (in a collection with unique, canonical ids, store
reachable) and a boolean `b`, `PATCH /:id` with `t`'s id and the body
`{ isCompleted: b }` answers 200 with `t` in which only `isCompleted` is set to `b`
(name and description are those of `t`), and the collection afterwards is the
collection before with `t` replaced by that task and every other document as it was. -/
theorem patch_isCompleted_changes_only_that_field (coll : Collection) (t : Task) (b : Bool)
    (hvalid : coll.Valid) (ht : t ∈ coll) :
    (router_patch none coll t._id ⟨none, none, some b⟩).exec
      = send 200 (.task { t with isCompleted := b }) ∧
    (router_patch none coll t._id ⟨none, none, some b⟩).coll
      = coll.map (fun x => if x = t then { t with isCompleted := b } else x) := by
  have hcast := castObjectId_canonical t._id (hvalid.2 t ht)
  have hfind := findById_of_mem coll t hvalid.1 ht
  have hrep := replaceById_eq_map coll t ⟨none, none, some b⟩ hvalid.1 ht
  have hupd := update_of_found coll t._id t._id t ⟨none, none, some b⟩ hcast rfl hfind
  have happly : applyUpdate t ⟨none, none, some b⟩ = { t with isCompleted := b } := rfl
  unfold router_patch
  dsimp only
  rw [hupd, hrep, happly]
  exact ⟨rfl, rfl⟩

/-- C1 at `sampleColl`: completing `sampleMilk`. -/
theorem patch_isCompleted_changes_only_that_field_witness :
    sampleColl.Valid ∧ sampleMilk ∈ sampleColl ∧
    ((router_patch none sampleColl sampleMilk._id ⟨none, none, some true⟩).exec
      = send 200 (.task { sampleMilk with isCompleted := true }) ∧
    (router_patch none sampleColl sampleMilk._id ⟨none, none, some true⟩).coll
      = sampleColl.map (fun x => if x = sampleMilk then { sampleMilk with isCompleted := true } else x)) :=
  ⟨by decide, by decide,
    patch_isCompleted_changes_only_that_field sampleColl sampleMilk true (by decide) (by decide)⟩

/-- C2, as stated, fails: with ids that identify no task of `sampleColl`, `PATCH`
with an empty `name` is answered 500 (the update validators run before the lookup),
and a malformed id is answered 500 by both `PATCH` and `DELETE` (the id cannot be
cast). -/
theorem unknown_id_answered_500 :
    (∀ t ∈ sampleColl, t._id ≠ sampleFreshId) ∧
    (router_patch none sampleColl sampleFreshId ⟨some "", none, none⟩).exec
      = send 500 (.error "Failed to update task") ∧
    (∀ t ∈ sampleColl, t._id ≠ "abc") ∧
    (router_patch none sampleColl "abc" ⟨none, none, some true⟩).exec
      = send 500 (.error "Failed to update task") ∧
    (router_delete none sampleColl "abc").exec
      = send 500 (.error "Failed to delete task") := by
  decide

/-- C2, amended: for a well-formed id that identifies no task of the collection
(store reachable), `DELETE /:id` answers 404 `{ error: "Task not found" }`, and so
does `PATCH /:id` for every body whose `name` is absent or non-empty; the collection
afterwards equals the collection before. -/
theorem unknown_id_not_found (coll : Collection) (id oid : String) (body : TaskFields)
    (hcast : castObjectId id = some oid) (habsent : ∀ t ∈ coll, t._id ≠ oid)
    (hname : body.name ≠ some "") :
    (router_patch none coll id body).exec = send 404 (.error "Task not found") ∧
    (router_patch none coll id body).coll = coll ∧
    (router_delete none coll id).exec = send 404 (.error "Task not found") ∧
    (router_delete none coll id).coll = coll := by
  have hfind := findById_none_of_absent coll oid habsent
  have hupd := update_of_absent coll id oid body hcast (update_valid_of_name body hname) hfind
  have hdel := delete_of_absent coll id oid hcast hfind
  unfold router_patch router_delete
  dsimp only
  rw [hupd, hdel]
  exact ⟨rfl, rfl, rfl, rfl⟩

/-- C2 amended, at `sampleColl` with `sampleFreshId` and the body `{ isCompleted: true }`. -/
theorem unknown_id_not_found_witness :
    castObjectId sampleFreshId = some sampleFreshId ∧
    (∀ t ∈ sampleColl, t._id ≠ sampleFreshId) ∧
    (⟨none, none, some true⟩ : TaskFields).name ≠ some "" ∧
    ((router_patch none sampleColl sampleFreshId ⟨none, none, some true⟩).exec
      = send 404 (.error "Task not found") ∧
    (router_patch none sampleColl sampleFreshId ⟨none, none, some true⟩).coll = sampleColl ∧
    (router_delete none sampleColl sampleFreshId).exec = send 404 (.error "Task not found") ∧
    (router_delete none sampleColl sampleFreshId).coll = sampleColl) :=
  ⟨by decide, by decide, by decide,
    unknown_id_not_found sampleColl sampleFreshId sampleFreshId ⟨none, none, some true⟩
      (by decide) (by decide) (by decide)⟩

/-- C3: for every body whose `name` is missing or the empty string (whatever the
collection, the generated id and the state of the store), `POST /` answers 500 with
`{ error: "Failed to create task" }` (so not 201), the collection afterwards equals
the collection before, and a following `GET /` lists exactly the tasks that were
there before. -/
theorem post_without_name_fails (outage : Option String) (newId : String) (coll : Collection)
    (body : TaskFields) (hname : body.name = none ∨ body.name = some "") :
    (router_post outage newId coll body).exec = send 500 (.error "Failed to create task") ∧
    (∀ r ∈ (router_post outage newId coll body).exec.sent, r.status ≠ 201) ∧
    (router_post outage newId coll body).coll = coll ∧
    (router_get none (router_post outage newId coll body).coll).exec
      = send 200 (.tasks coll) := by
  have hreq : requiredString body.name = false := by
    rcases hname with h | h <;> rw [h] <;> rfl
  have hsave := save_of_invalid outage newId coll body.name body.description
    (some (body.isCompleted.getD false)) hreq
  unfold router_post
  dsimp only
  rw [hsave]
  refine ⟨rfl, ?_, rfl, rfl⟩
  intro r hr
  have h500 : r = ⟨500, .error "Failed to create task"⟩ := List.mem_singleton.mp hr
  rw [h500]
  decide

/-- C3 at `sampleColl` with the body `{ name: "", description: "x" }`. -/
theorem post_without_name_fails_witness :
    ((some "" : Option String) = none ∨ (some "" : Option String) = some "") ∧
    ((router_post none sampleFreshId sampleColl ⟨some "", some "x", none⟩).exec
      = send 500 (.error "Failed to create task") ∧
    (∀ r ∈ (router_post none sampleFreshId sampleColl ⟨some "", some "x", none⟩).exec.sent,
      r.status ≠ 201) ∧
    (router_post none sampleFreshId sampleColl ⟨some "", some "x", none⟩).coll = sampleColl ∧
    (router_get none (router_post none sampleFreshId sampleColl ⟨some "", some "x", none⟩).coll).exec
      = send 200 (.tasks sampleColl)) :=
  ⟨Or.inr rfl,
    post_without_name_fails none sampleFreshId sampleColl ⟨some "", some "x", none⟩ (Or.inr rfl)⟩

/-- C4: for every body with a non-empty `name` (store reachable, generated id not
yet in use), `POST /` answers 201 with the created task, which carries the submitted
name and description and has `isCompleted` `false` when the body gives none and the
given value otherwise; the collection afterwards is the collection before followed
by that task, and that is what a following `GET /` lists. -/
theorem post_creates_task (newId : String) (coll : Collection) (body : TaskFields)
    (n : String) (hname : body.name = some n) (hn : n ≠ "")
    (hfresh : ∀ t ∈ coll, t._id ≠ newId) :
    (router_post none newId coll body).exec
      = send 201 (.task ⟨newId, some n, body.description, body.isCompleted.getD false⟩) ∧
    (router_post none newId coll body).coll
      = coll ++ [⟨newId, some n, body.description, body.isCompleted.getD false⟩] ∧
    (router_get none (router_post none newId coll body).coll).exec
      = send 200
          (.tasks (coll ++ [⟨newId, some n, body.description, body.isCompleted.getD false⟩])) ∧
    (⟨newId, some n, body.description, body.isCompleted.getD false⟩ : Task)
      ∈ (router_post none newId coll body).coll ∧
    (∀ t ∈ coll, t ∈ (router_post none newId coll body).coll) ∧
    (body.isCompleted = none → (body.isCompleted.getD false) = false) ∧
    (∀ b, body.isCompleted = some b → (body.isCompleted.getD false) = b) := by
  have hany : coll.any (fun t => t._id == newId) = false := by
    rw [List.any_eq_false]
    intro t ht
    simpa using hfresh t ht
  have hsave := save_of_fresh newId coll (some n) body.description
    (some (body.isCompleted.getD false)) (requiredString_of_ne_empty n hn) hany
  unfold router_post
  dsimp only
  rw [hname, hsave]
  refine ⟨rfl, rfl, rfl, ?_, ?_, ?_, ?_⟩
  · exact List.mem_append_right _ (List.mem_singleton_self _)
  · intro t ht; exact List.mem_append_left _ ht
  · intro h; rw [h]; rfl
  · intro b h; rw [h]; rfl

/-- C4 at `sampleColl` with the body `{ name: "Buy milk", description: "2%" }`. -/
theorem post_creates_task_witness :
    (some "Buy milk" : Option String) = some "Buy milk" ∧ "Buy milk" ≠ "" ∧
    (∀ t ∈ sampleColl, t._id ≠ sampleFreshId) ∧
    ((router_post none sampleFreshId sampleColl ⟨some "Buy milk", some "2%", none⟩).exec
      = send 201
          (.task ⟨sampleFreshId, some "Buy milk", some "2%", (none : Option Bool).getD false⟩) ∧
    (router_post none sampleFreshId sampleColl ⟨some "Buy milk", some "2%", none⟩).coll
      = sampleColl ++
          [⟨sampleFreshId, some "Buy milk", some "2%", (none : Option Bool).getD false⟩] ∧
    (router_get none
        (router_post none sampleFreshId sampleColl ⟨some "Buy milk", some "2%", none⟩).coll).exec
      = send 200 (.tasks (sampleColl ++
          [⟨sampleFreshId, some "Buy milk", some "2%", (none : Option Bool).getD false⟩])) ∧
    (⟨sampleFreshId, some "Buy milk", some "2%", (none : Option Bool).getD false⟩ : Task)
      ∈ (router_post none sampleFreshId sampleColl ⟨some "Buy milk", some "2%", none⟩).coll ∧
    (∀ t ∈ sampleColl,
      t ∈ (router_post none sampleFreshId sampleColl ⟨some "Buy milk", some "2%", none⟩).coll) ∧
    ((none : Option Bool) = none → ((none : Option Bool).getD false) = false) ∧
    (∀ b, (none : Option Bool) = some b → ((none : Option Bool).getD false) = b)) :=
  ⟨rfl, by decide, by decide,
    post_creates_task sampleFreshId sampleColl ⟨some "Buy milk", some "2%", none⟩ "Buy milk"
      rfl (by decide) (by decide)⟩

/-- C5: for a task `t` stored in a collection with unique, canonical ids (store
reachable), `DELETE /:id` with `t`'s id answers 200 with `{ message: "Task deleted" }`;
afterwards a lookup of that id finds nothing (and a second `DELETE` answers 404),
`GET /` lists the collection without `t`, and every other task is still there,
unchanged and in the same order. -/
theorem delete_removes_exactly_that_task (coll : Collection) (t : Task)
    (hvalid : coll.Valid) (ht : t ∈ coll) :
    (router_delete none coll t._id).exec = send 200 (.message "Task deleted") ∧
    (router_delete none coll t._id).coll = coll.filter (fun x => !(x._id == t._id)) ∧
    (router_delete none coll t._id).coll.findById t._id = none ∧
    (router_delete none (router_delete none coll t._id).coll t._id).exec
      = send 404 (.error "Task not found") ∧
    (router_get none (router_delete none coll t._id).coll).exec
      = send 200 (.tasks (coll.filter (fun x => !(x._id == t._id)))) ∧
    t ∉ (router_delete none coll t._id).coll ∧
    (∀ x ∈ coll, x ≠ t → x ∈ (router_delete none coll t._id).coll) := by
  have hcast := castObjectId_canonical t._id (hvalid.2 t ht)
  have hfind := findById_of_mem coll t hvalid.1 ht
  have hrem := removeById_eq_filter coll t hvalid.1 ht
  have hdel := delete_of_found coll t._id t._id t hcast hfind
  have habsent : ∀ x ∈ coll.filter (fun x => !(x._id == t._id)), x._id ≠ t._id := by
    intro x hx
    simpa using (List.mem_filter.mp hx).2
  have hfind2 := findById_none_of_absent _ t._id habsent
  have hdel2 := delete_of_absent _ t._id t._id hcast hfind2
  have hcoll : (router_delete none coll t._id).coll
      = coll.filter (fun x => !(x._id == t._id)) := by
    unfold router_delete
    dsimp only
    rw [hdel, hrem]
  have hexec : (router_delete none coll t._id).exec = send 200 (.message "Task deleted") := by
    unfold router_delete
    dsimp only
    rw [hdel]
    rfl
  refine ⟨hexec, hcoll, ?_, ?_, ?_, ?_, ?_⟩
  · rw [hcoll]; exact hfind2
  · rw [hcoll]
    unfold router_delete
    dsimp only
    rw [hdel2]
    rfl
  · rw [hcoll]; rfl
  · rw [hcoll]; intro hmem; exact habsent t hmem rfl
  · intro x hx hxt
    rw [hcoll]
    refine List.mem_filter.mpr ⟨hx, ?_⟩
    have hne : x._id ≠ t._id := by
      intro heq
      have h1 := findById_of_mem coll x hvalid.1 hx
      rw [heq, hfind] at h1
      exact hxt (Option.some.inj h1).symm
    simpa using hne

/-- C5 at `sampleColl`: deleting `sampleMilk`. -/
theorem delete_removes_exactly_that_task_witness :
    sampleColl.Valid ∧ sampleMilk ∈ sampleColl ∧
    ((router_delete none sampleColl sampleMilk._id).exec = send 200 (.message "Task deleted") ∧
    (router_delete none sampleColl sampleMilk._id).coll
      = sampleColl.filter (fun x => !(x._id == sampleMilk._id)) ∧
    (router_delete none sampleColl sampleMilk._id).coll.findById sampleMilk._id = none ∧
    (router_delete none (router_delete none sampleColl sampleMilk._id).coll sampleMilk._id).exec
      = send 404 (.error "Task not found") ∧
    (router_get none (router_delete none sampleColl sampleMilk._id).coll).exec
      = send 200 (.tasks (sampleColl.filter (fun x => !(x._id == sampleMilk._id)))) ∧
    sampleMilk ∉ (router_delete none sampleColl sampleMilk._id).coll ∧
    (∀ x ∈ sampleColl, x ≠ sampleMilk →
      x ∈ (router_delete none sampleColl sampleMilk._id).coll)) :=
  ⟨by decide, by decide,
    delete_removes_exactly_that_task sampleColl sampleMilk (by decide) (by decide)⟩

/-- C10: each of the four handlers writes exactly one response and throws nothing,
whatever its store call returns or throws; when the store call throws, whatever the
error, the response is 500 with the fixed payload of that handler. -/
theorem handlers_answer_once_and_never_throw :
    (∀ outage newId coll body,
      (router_post outage newId coll body).exec
        = postRespond (Task.save outage newId coll body.name body.description
            (some (body.isCompleted.getD false))).outcome) ∧
    (∀ outage coll, (router_get outage coll).exec = getRespond (Task.find outage coll).outcome) ∧
    (∀ outage coll id body,
      (router_patch outage coll id body).exec
        = patchRespond (Task.findByIdAndUpdate outage coll id body).outcome) ∧
    (∀ outage coll id,
      (router_delete outage coll id).exec
        = deleteRespond (Task.findByIdAndDelete outage coll id).outcome) ∧
    (∀ r, (postRespond r).sent.length = 1 ∧ (postRespond r).thrown = none) ∧
    (∀ r, (getRespond r).sent.length = 1 ∧ (getRespond r).thrown = none) ∧
    (∀ r, (patchRespond r).sent.length = 1 ∧ (patchRespond r).thrown = none) ∧
    (∀ r, (deleteRespond r).sent.length = 1 ∧ (deleteRespond r).thrown = none) ∧
    (∀ e, postRespond (.error e) = send 500 (.error "Failed to create task")) ∧
    (∀ e, getRespond (.error e) = send 500 (.error "Failed to fetch tasks")) ∧
    (∀ e, patchRespond (.error e) = send 500 (.error "Failed to update task")) ∧
    (∀ e, deleteRespond (.error e) = send 500 (.error "Failed to delete task")) := by
  refine ⟨fun _ _ _ _ => rfl, fun _ _ => rfl, fun _ _ _ _ => rfl, fun _ _ _ => rfl,
    ?_, ?_, ?_, ?_, fun _ => rfl, fun _ => rfl, fun _ => rfl, fun _ => rfl⟩
  · intro r; cases r <;> exact ⟨rfl, rfl⟩
  · intro r; cases r <;> exact ⟨rfl, rfl⟩
  · intro r
    rcases r with e | (_ | t) <;> exact ⟨rfl, rfl⟩
  · intro r
    rcases r with e | (_ | t) <;> exact ⟨rfl, rfl⟩

/-! ## The client: properties -/

/-- C6, failing input: editing `sampleDog` with the name buffer "Walk the dog", the
Add/Update action issues `PUT /api/tasks/<id>`.  The router has a `PATCH` route for
that path and no `PUT` route for any path, so no handler runs for the request, the
collection is not touched, and the client ends in its `.catch` branch: the cache is
as before and the error message is "Error saving task.". -/
theorem edit_issues_put_which_no_route_serves :
    (handleAddOrUpdate { sampleState with
        todoName := "Walk the dog", description := "twice", isEditing := some sampleDog._id }).2
      = some ⟨.PUT, "http://localhost:5000/api/tasks/65a1b2c3d4e5f60718293a4c",
          ⟨some "Walk the dog", some "twice", none⟩⟩ ∧
    appMatch .PATCH "http://localhost:5000/api/tasks/65a1b2c3d4e5f60718293a4c"
      = some (.update sampleDog._id) ∧
    (∀ url, appMatch .PUT url = none) ∧
    app none sampleFreshId sampleColl
        ⟨.PUT, "http://localhost:5000/api/tasks/65a1b2c3d4e5f60718293a4c",
          ⟨some "Walk the dog", some "twice", none⟩⟩ = none ∧
    runAddOrUpdate { sampleState with
        todoName := "Walk the dog", description := "twice", isEditing := some sampleDog._id }
        (fun _ => .rejected)
      = { sampleState with
          todoName := "Walk the dog", description := "twice", isEditing := some sampleDog._id,
          error := some "Error saving task." } := by
  refine ⟨by decide, by decide, ?_, by decide, by decide⟩
  intro url
  unfold appMatch
  split
  · rfl
  · rfl

/-- C7: when the request of `handleToggleCompletion` fails, the cache is the cache
the handler started from (same tasks, same order) and the error message is the
non-empty "Error toggling task completion."; nothing else of the state changes.
The cache written back is the one the handler closed over, whatever the state is
when the failure arrives. -/
theorem toggle_failure_restores_cache (st : AppState) (id : String) (isCompleted : Bool) :
    runToggleCompletion st id isCompleted (fun _ => .rejected)
      = { st with error := some "Error toggling task completion." } ∧
    (runToggleCompletion st id isCompleted (fun _ => .rejected)).todos = st.todos ∧
    (∀ cur : AppState,
      (handleToggleCompletion_catch st cur).todos = st.todos ∧
      (handleToggleCompletion_catch st cur).error = some "Error toggling task completion.") ∧
    "Error toggling task completion." ≠ "" := by
  refine ⟨rfl, rfl, fun _ => ⟨rfl, rfl⟩, by decide⟩

/-- C9: when not editing and the name buffer is non-empty after trimming, the
Add/Update action issues a create with the two buffers.  If it succeeds with record
`r`, the cache becomes the old cache followed by `r`, both buffers are emptied and
the state is still not editing; if it fails, cache and buffers are unchanged and the
error message is "Error saving task.". -/
theorem add_appends_record_or_reports_error (st : AppState)
    (hadd : truthyNullable st.isEditing = false) (hname : jsTrim st.todoName ≠ "") :
    (handleAddOrUpdate st).2
      = some ⟨.POST, API_URL, ⟨some st.todoName, some st.description, none⟩⟩ ∧
    (∀ r, runAddOrUpdate st (fun _ => .resolved r)
      = { st with error := none, todos := st.todos ++ [r], todoName := "", description := "" }) ∧
    (∀ r, truthyNullable (runAddOrUpdate st (fun _ => .resolved r)).isEditing = false) ∧
    runAddOrUpdate st (fun _ => .rejected) = { st with error := some "Error saving task." } := by
  have htruthy : truthyString (jsTrim st.todoName) = true := by
    cases h : truthyString (jsTrim st.todoName) with
    | true => rfl
    | false => exact absurd ((truthyString_eq_false_iff _).mp h) hname
  have hreq : handleAddOrUpdate st
      = ({ st with error := none },
         some ⟨.POST, API_URL, ⟨some st.todoName, some st.description, none⟩⟩) := by
    unfold handleAddOrUpdate
    simp only [htruthy, Bool.not_true, Bool.false_eq_true, if_false]
    cases hed : st.isEditing with
    | none => rfl
    | some id =>
      have : truthyString id = false := by simpa [truthyNullable, hed] using hadd
      simp [this]
  have hres : ∀ r, runAddOrUpdate st (fun _ => .resolved r)
      = { st with error := none, todos := st.todos ++ [r], todoName := "", description := "" } := by
    intro r
    simp [runAddOrUpdate, hreq, handleAddOrUpdate_then, hadd]
  refine ⟨by rw [hreq], hres, ?_, ?_⟩
  · intro r; rw [hres r]; exact hadd
  · simp [runAddOrUpdate, hreq, handleAddOrUpdate_catch]

/-- C9 at the buffers "Buy milk" / "2%" and the cache `sampleColl`. -/
theorem add_appends_record_or_reports_error_witness :
    truthyNullable
      ({ sampleState with todoName := "Buy milk", description := "2%" } : AppState).isEditing
      = false ∧
    jsTrim ({ sampleState with todoName := "Buy milk", description := "2%" } : AppState).todoName
      ≠ "" ∧
    ((handleAddOrUpdate { sampleState with todoName := "Buy milk", description := "2%" }).2
      = some ⟨.POST, API_URL,
          ⟨some ({ sampleState with todoName := "Buy milk", description := "2%" } : AppState).todoName,
           some ({ sampleState with todoName := "Buy milk", description := "2%" } : AppState).description,
           none⟩⟩ ∧
    (∀ r, runAddOrUpdate { sampleState with todoName := "Buy milk", description := "2%" }
        (fun _ => .resolved r)
      = { ({ sampleState with todoName := "Buy milk", description := "2%" } : AppState) with
          error := none,
          todos := ({ sampleState with todoName := "Buy milk", description := "2%" } : AppState).todos
            ++ [r],
          todoName := "", description := "" }) ∧
    (∀ r, truthyNullable
      (runAddOrUpdate { sampleState with todoName := "Buy milk", description := "2%" }
        (fun _ => .resolved r)).isEditing = false) ∧
    runAddOrUpdate { sampleState with todoName := "Buy milk", description := "2%" }
        (fun _ => .rejected)
      = { ({ sampleState with todoName := "Buy milk", description := "2%" } : AppState) with
          error := some "Error saving task." }) :=
  ⟨by decide, by decide,
    add_appends_record_or_reports_error
      { sampleState with todoName := "Buy milk", description := "2%" }
      (by decide) (by decide)⟩

end MyTodos
